import Mathlib

/-!
Verification of the DeerFlow client-side chat store (`src/core/store/store.ts`
and the store variant embedded with `src/app/chat/components/message-list-view.tsx`).

The repository's zustand store is shallowly embedded: the store object becomes
the `StoreState` structure, the zustand `set` calls become record updates, the
JavaScript `Map` (insertion ordered) becomes an association list, and the
module-level helper functions (`appendMessage`, `updateMessage`,
`appendResearch`, `appendResearchActivity`, `checkAndFetchFinalPaper`,
`fetchFinalPaper`, the `sendMessage` event loop) become Lean functions on
`StoreState`.  Code that can crash at runtime (the non-null assertions
`planMessage!` and `researchActivityIds.get(researchId)!`) is modelled with
`Option`: `none` is the crash.
-/

/-- One tool invocation recorded on a message (`Message.toolCalls` entry). -/
structure ToolCall where
  id : String
  name : String
  args : String := ""
  result : Option String := none
deriving DecidableEq, Repr

/-- The `Message` entity of `src/core/messages` as used by the store. -/
structure Message where
  id : String
  threadId : String
  role : String
  agent : Option String := none
  content : String := ""
  contentChunks : List String := []
  toolCalls : List ToolCall := []
  isStreaming : Bool := false
  finishReason : Option String := none
  interruptFeedback : Option String := none
deriving DecidableEq, Repr

/-- Response of the final-paper endpoint (`FinalPaperResponse` in `core/api`). -/
structure FinalPaperResponse where
  final_paper : String
  status : String
  paper_writing_mode : Bool
deriving DecidableEq, Repr

/-- Insertion-ordered string-keyed map, the embedding of a JavaScript `Map`. -/
def mapGet {α : Type} (m : List (String × α)) (k : String) : Option α :=
  (m.find? (fun p => p.1 == k)).map (fun p => p.2)

/-- `Map.set`: overwrite in place if the key exists (JS `Map.set` keeps the
original insertion position), otherwise append at the end. -/
def mapSet {α : Type} (m : List (String × α)) (k : String) (v : α) : List (String × α) :=
  if m.any (fun p => p.1 == k) then
    m.map (fun p => if p.1 == k then (k, v) else p)
  else
    m ++ [(k, v)]

/-- The zustand store state (the fields of `useStore` in `store.ts`). -/
structure StoreState where
  responding : Bool := false
  threadId : String
  messageIds : List String := []
  messages : List (String × Message) := []
  researchIds : List String := []
  researchPlanIds : List (String × String) := []
  researchReportIds : List (String × String) := []
  researchActivityIds : List (String × List String) := []
  ongoingResearchId : Option String := none
  openResearchId : Option String := none
  paperSections : List String := []
  paperOutlineId : Option String := none
  completedPaperId : Option String := none
  finalPaper : Option FinalPaperResponse := none
  finalPaperLoading : Bool := false
  finalPaperError : Option String := none
deriving DecidableEq, Repr

/-- The initial store state of a fresh session. -/
def initialState (threadId : String) : StoreState :=
  { threadId := threadId }

/-- `Array.from(state.messages.values())`: the messages in insertion order. -/
def values (s : StoreState) : List Message :=
  s.messages.map (fun p => p.2)

/-- `getMessage(id)` : read a message by id from the keyed map. -/
def getMessage (s : StoreState) (id : String) : Option Message :=
  mapGet s.messages id

/-- `existsMessage(id)`: membership in the ordered id list. -/
def existsMessage (s : StoreState) (id : String) : Bool :=
  s.messageIds.contains id

/-- `findMessageByToolCallId`: scan messages in reverse insertion order for the
one owning the tool call. -/
def findMessageByToolCallId (s : StoreState) (toolCallId : String) : Option Message :=
  (values s).reverse.find? (fun message =>
    message.toolCalls.any (fun toolCall => toolCall.id == toolCallId))

/-- The paper-writing-workflow test used throughout the source: some message
tagged `paper_writer` or `outline_writer` exists in the store. -/
def isPaperWritingWorkflow (s : StoreState) : Bool :=
  (values s).any (fun msg =>
    msg.agent == some "paper_writer" || msg.agent == some "outline_writer")

namespace Store

/-- Store method `appendMessage`: extend the ordered id list and the keyed map. -/
def appendMessage (s : StoreState) (message : Message) : StoreState :=
  { s with
    messageIds := s.messageIds ++ [message.id]
    messages := mapSet s.messages message.id message }

/-- Store method `updateMessage`: overwrite the keyed entry only. -/
def updateMessage (s : StoreState) (message : Message) : StoreState :=
  { s with messages := mapSet s.messages message.id message }

/-- Store method `openResearch`. -/
def openResearch (s : StoreState) (researchId : Option String) : StoreState :=
  { s with openResearchId := researchId }

/-- Store method `setOngoingResearch`. -/
def setOngoingResearch (s : StoreState) (researchId : Option String) : StoreState :=
  { s with ongoingResearchId := researchId }

/-- Store method `addPaperSection`. -/
def addPaperSection (s : StoreState) (sectionContent : String) : StoreState :=
  { s with paperSections := s.paperSections ++ [sectionContent] }

/-- Store method `setPaperOutline`. -/
def setPaperOutline (s : StoreState) (outlineId : String) : StoreState :=
  { s with paperOutlineId := some outlineId }

/-- Store method `resetPaperState`. -/
def resetPaperState (s : StoreState) : StoreState :=
  { s with paperSections := [], completedPaperId := none }

/-- Store method `clearFinalPaper`. -/
def clearFinalPaper (s : StoreState) : StoreState :=
  { s with finalPaper := none, finalPaperError := none, finalPaperLoading := false }

end Store

/-- Modelled from the spec: `parseJSON` (`core/utils`) is not under `src/`.
Per the spec, a `paper_writer` payload is a duck-typed JSON record with an
optional `section_content` field, with fallback to raw text when decoding fails.
The model recognizes the canonical serialization
`\x7b"section_content":"…"\x7d` and yields `none` (decode failure) otherwise;
plain section text such as `"A"` never parses as a record.  (The check is
phrased over the character list because `String.startsWith` is defined by
well-founded recursion and does not evaluate inside the kernel.) -/
def sectionContentField (content : String) : Option String :=
  let pre := "\x7b\"section_content\":\"".data
  let suf := "\"\x7d".data
  let cs := content.data
  if pre.isPrefixOf cs && suf.isSuffixOf cs && pre.length + suf.length ≤ cs.length then
    some (String.mk ((cs.drop pre.length).take (cs.length - pre.length - suf.length)))
  else
    none

/-- JS truthiness of `message.content?.trim()`: the trimmed text is nonempty
exactly when some character is not whitespace.  (`String.trim` is defined by
well-founded recursion and does not evaluate inside the kernel, so the test is
phrased over the character list.) -/
def contentTrimNonempty (content : String) : Bool :=
  content.data.any (fun c => !c.isWhitespace)

/-- `appendResearch(researchId)`: reverse-scan the ordered id list for the most
recent `planner` message, then create the research unit.  The source
dereferences `planMessage!.id`; absence of a planner message is the crash,
modelled as `none`. -/
def appendResearch (s : StoreState) (researchId : String) : Option StoreState :=
  let planMessage :=
    (s.messageIds.reverse.filterMap (getMessage s)).find?
      (fun message => message.agent == some "planner")
  match planMessage with
  | none => none
  | some pm =>
      some { s with
        ongoingResearchId := some researchId
        researchIds := s.researchIds ++ [researchId]
        researchPlanIds := mapSet s.researchPlanIds researchId pm.id
        researchActivityIds := mapSet s.researchActivityIds researchId [pm.id, researchId] }

/-- `appendResearchActivity(message)`: attach the message id to the ongoing
research unit (idempotent), and record it as the report message when the agent
is `reporter`.  The source dereferences `researchActivityIds.get(researchId)!`;
a missing entry is the crash, modelled as `none`. -/
def appendResearchActivity (s : StoreState) (message : Message) : Option StoreState :=
  match s.ongoingResearchId with
  | none => some s
  | some researchId =>
      match mapGet s.researchActivityIds researchId with
      | none => none
      | some current =>
          let s1 :=
            if current.contains message.id then s
            else { s with
              researchActivityIds :=
                mapSet s.researchActivityIds researchId (current ++ [message.id]) }
          if message.agent == some "reporter" then
            some { s1 with
              researchReportIds := mapSet s1.researchReportIds researchId message.id }
          else
            some s1

/-- The research-activity agent tag set of `store.ts` `appendMessage`. -/
def isResearchActivityAgent (message : Message) : Bool :=
  message.agent == some "coder" || message.agent == some "thinking" ||
    message.agent == some "reporter" || message.agent == some "researcher"

/-- The research-aggregation block at the top of `appendMessage`. -/
def researchStep (s : StoreState) (message : Message) : Option StoreState :=
  if isResearchActivityAgent message then
    let started :=
      if s.ongoingResearchId.isNone then
        (appendResearch s message.id).map
          (fun s1 => Store.openResearch s1 (some message.id))
      else
        some s
    started.bind (fun s1 => appendResearchActivity s1 message)
  else
    some s

/-- The committed `outline_writer` handler (shared by `appendMessage` and
`updateMessage`): `setPaperOutline` then `resetPaperState`. -/
def outlineStep (s : StoreState) (message : Message) : StoreState :=
  if message.agent == some "outline_writer" && !message.isStreaming then
    Store.resetPaperState (Store.setPaperOutline s message.id)
  else
    s

/-- The committed `paper_writer` handler (shared by `appendMessage` and
`updateMessage`): prefer the structured `section_content` field (JS truthiness,
so an empty string does not count), else fall back to the whole content when
its trim is nonempty. -/
def paperWriterStep (s : StoreState) (message : Message) : StoreState :=
  if message.agent == some "paper_writer" && !message.isStreaming then
    let sectionContent := (sectionContentField message.content).getD ""
    if sectionContent != "" then
      Store.addPaperSection s sectionContent
    else if contentTrimNonempty message.content then
      Store.addPaperSection s message.content
    else
      s
  else
    s

/-- Module-level `appendMessage` of `store.ts`: research aggregation, the
paper-writing handlers, then the store append.  (The committed-`reporter`
branch of the source only logs.) -/
def appendMessage (s : StoreState) (message : Message) : Option StoreState :=
  (researchStep s message).map (fun s1 =>
    Store.appendMessage (paperWriterStep (outlineStep s1 message) message) message)

/-- Module-level `updateMessage` of `store.ts`: close the ongoing research on a
committed `reporter` message unless the session is a paper-writing workflow,
run the paper-writing handlers, then the store update. -/
def updateMessage (s : StoreState) (message : Message) : StoreState :=
  let isPWW := isPaperWritingWorkflow s
  let s1 :=
    if s.ongoingResearchId.isSome && message.agent == some "reporter" &&
        !message.isStreaming && !isPWW then
      Store.setOngoingResearch s none
    else
      s
  Store.updateMessage (paperWriterStep (outlineStep s1 message) message) message

/-- One inbound stream increment (`{type, data}` in the `sendMessage` loop).
`type` is the discriminator string; `"tool_call_result"` is the one the loop
branches on. -/
structure StreamEvent where
  type : String
  id : String
  threadId : String := ""
  agent : Option String := none
  role : String := "assistant"
  deltaText : Option String := none
  toolCallId : Option String := none
  finishReason : Option String := none
deriving DecidableEq, Repr

/-- Modelled from the spec: `mergeMessage` (`core/messages`) is not under
`src/`.  Per the spec it folds one increment into the message: a content delta
appends to `content` and adds a chunk, a finish commits the message and sets
the finish reason, a tool-call result resolves the matching tool call; the
message identity is never changed. -/
def mergeMessage (message : Message) (event : StreamEvent) : Message :=
  if event.type == "message_chunk" then
    { message with
      content := message.content ++ (event.deltaText.getD "")
      contentChunks := message.contentChunks ++ [event.deltaText.getD ""] }
  else if event.type == "finish" then
    { message with isStreaming := false, finishReason := event.finishReason }
  else if event.type == "tool_call_result" then
    { message with
      toolCalls := message.toolCalls.map (fun toolCall =>
        if some toolCall.id == event.toolCallId then
          { toolCall with result := event.deltaText }
        else toolCall) }
  else
    message

/-- One iteration of the `for await (const event of stream)` loop in
`sendMessage`: resolve the target message (by tool-call id for
`tool_call_result`, else synthesize-and-append on a fresh id, else by id),
fold the increment with `mergeMessage`, and commit via `updateMessage`. -/
def processEvent (s : StoreState) (event : StreamEvent) : Option StoreState :=
  if event.type == "tool_call_result" then
    match (findMessageByToolCallId s (event.toolCallId.getD "")).orElse
        (fun _ => getMessage s event.id) with
    | some message => some (updateMessage s (mergeMessage message event))
    | none => some s
  else if !existsMessage s event.id then
    let message : Message :=
      { id := event.id, threadId := event.threadId, agent := event.agent,
        role := event.role, content := "", contentChunks := [],
        isStreaming := true }
    (appendMessage s message).map (fun s1 =>
      updateMessage s1 (mergeMessage message event))
  else
    match getMessage s event.id with
    | some message => some (updateMessage s (mergeMessage message event))
    | none => some s

/-- A whole response stream processed from the initial session state. -/
def runEvents (threadId : String) (events : List StreamEvent) : Option StoreState :=
  events.foldlM processEvent (initialState threadId)

/-- `fetchFinalPaper` entry (both variants): loading on, prior error cleared,
before the external call is awaited. -/
def fetchFinalPaperStart (s : StoreState) : StoreState :=
  { s with finalPaperLoading := true, finalPaperError := none }

/-- `fetchFinalPaper` settling (the `store.ts` variant): on success store the
artifact, on failure store the human-readable message; loading ends either
way and a failure leaves the previous artifact untouched. -/
def fetchFinalPaperResolve (s : StoreState)
    (outcome : Except String FinalPaperResponse) : StoreState :=
  match outcome with
  | Except.ok finalPaper =>
      { s with finalPaper := some finalPaper, finalPaperLoading := false }
  | Except.error errorMessage =>
      { s with finalPaperError := some errorMessage, finalPaperLoading := false }

/-- A whole `fetchFinalPaper(threadId)` call with the given outcome of the
external `getFinalPaper` service. -/
def fetchFinalPaperRun (s : StoreState)
    (outcome : Except String FinalPaperResponse) : StoreState :=
  fetchFinalPaperResolve (fetchFinalPaperStart s) outcome

/-- The section-count estimate of `checkAndFetchFinalPaper`, with the
per-pattern regex match counts over the lowercased outline text taken as
inputs (the JS regex engine is a platform service): default 3 when nothing is
detected, otherwise the maximal count clamped to [2, 8]. -/
def estimateExpectedSections (matchCounts : List Nat) : Nat :=
  let maxSectionCount := matchCounts.foldl Nat.max 0
  if maxSectionCount > 0 then min (max maxSectionCount 2) 8 else 3

/-- The completed-`paper_writer` count reported by the completion check's
diagnostics. -/
def completedPaperWriterCount (s : StoreState) : Nat :=
  ((values s).filter (fun msg =>
    msg.agent == some "paper_writer" && !msg.isStreaming)).length

namespace MLV

/-!
The store variant accompanying `message-list-view.tsx` (the copy after the
component in that file): its `checkAndFetchFinalPaper` gates the final-paper
fetch on `references_writer` completion, and its `fetchFinalPaper` injects a
`final_paper` message card on success.
-/

/-- Fire decision of `checkAndFetchFinalPaper`'s deferred re-evaluation, read
from the store state at timeout time.  The outline-based section-count
estimate computed inside the callback is only logged; it is modelled
separately by `estimateExpectedSections`. -/
def checkAndFetchFinalPaperFires (s : StoreState) : Bool :=
  let allMessages := values s
  let isPWW := allMessages.any (fun msg =>
    msg.agent == some "paper_writer" || msg.agent == some "outline_writer")
  if !isPWW then false
  else
    let hasPaperWriters := allMessages.any (fun msg => msg.agent == some "paper_writer")
    if !hasPaperWriters then false
    else
      let streamingReferencesWriters := allMessages.filter (fun msg =>
        msg.agent == some "references_writer" && msg.isStreaming)
      let anyStreamingMessages := allMessages.any (fun msg => msg.isStreaming)
      let completedReferencesWriters := allMessages.filter (fun msg =>
        msg.agent == some "references_writer" && !msg.isStreaming)
      hasPaperWriters && streamingReferencesWriters.length == 0 &&
        decide (completedReferencesWriters.length > 0) &&
        !anyStreamingMessages && !s.finalPaper.isSome

/-- The serialized final-paper card body (`JSON.stringify` of the title,
content, status and mode record; the stringifier is a platform service and
the serialization is modelled canonically — no claim depends on it). -/
def finalPaperCardContent (finalPaper : FinalPaperResponse) : String :=
  "\x7b\"title\":\"研究论文\",\"content\":\"" ++ finalPaper.final_paper ++
    "\",\"status\":\"" ++ finalPaper.status ++ "\",\"paper_writing_mode\":" ++
    (if finalPaper.paper_writing_mode then "true" else "false") ++ "\x7d"

/-- Successful settling of the `message-list-view` variant of
`fetchFinalPaper`: store the artifact, end loading, and (when the document
body is nonempty) append the `final_paper` message card directly through the
store method. -/
def fetchFinalPaperSuccess (s : StoreState) (finalPaper : FinalPaperResponse)
    (cardId threadId : String) : StoreState :=
  let s1 := { s with finalPaper := some finalPaper, finalPaperLoading := false }
  if finalPaper.final_paper != "" then
    Store.appendMessage s1
      { id := cardId, threadId := threadId, role := "assistant",
        agent := some "final_paper",
        content := finalPaperCardContent finalPaper,
        contentChunks := [finalPaper.final_paper], isStreaming := false }
  else
    s1

/-- A run of the final-artifact gateway under overlapping deferred
re-evaluations: the store, the number of fetch invocations so far, and the
number of fetches still in flight. -/
structure GatewayRun where
  store : StoreState
  fetchCount : Nat
  pending : Nat
deriving DecidableEq, Repr

/-- One debounce firing: evaluate the completion conditions on the current
state; when they hold, invoke the fetch (loading begins synchronously, the
result is still pending). -/
def fireStep (g : GatewayRun) : GatewayRun :=
  if checkAndFetchFinalPaperFires g.store then
    { store := fetchFinalPaperStart g.store,
      fetchCount := g.fetchCount + 1, pending := g.pending + 1 }
  else
    g

/-- One in-flight fetch resolving successfully. -/
def resolveOk (g : GatewayRun) (finalPaper : FinalPaperResponse)
    (cardId threadId : String) : GatewayRun :=
  if g.pending ≠ 0 then
    { store := fetchFinalPaperSuccess g.store finalPaper cardId threadId,
      fetchCount := g.fetchCount, pending := g.pending - 1 }
  else
    g

end MLV

/-! ### Basic lemmas about the embedding -/

theorem mapGet_mapSet_self {α : Type} (m : List (String × α)) (k : String) (v : α) :
    mapGet (mapSet m k v) k = some v := by
  unfold mapGet mapSet
  split
  · next hmem =>
    induction m with
    | nil => simp at hmem
    | cons p rest ih =>
        by_cases hp : p.1 == k
        · simp [List.find?, hp]
        · simp only [List.any_cons, Bool.or_eq_true] at hmem
          rcases hmem with hmem | hmem
          · exact absurd hmem hp
          · simpa [List.find?, hp] using ih hmem
  · next hmem =>
    induction m with
    | nil => simp [List.find?]
    | cons p rest ih =>
        simp only [List.any_cons, Bool.or_eq_true, not_or] at hmem
        simpa [List.find?, hmem.1] using ih hmem.2

theorem outlineStep_frame (s : StoreState) (m : Message) :
    (outlineStep s m).messageIds = s.messageIds ∧
    (outlineStep s m).messages = s.messages ∧
    (outlineStep s m).researchIds = s.researchIds ∧
    (outlineStep s m).ongoingResearchId = s.ongoingResearchId ∧
    (outlineStep s m).researchPlanIds = s.researchPlanIds ∧
    (outlineStep s m).researchActivityIds = s.researchActivityIds ∧
    (outlineStep s m).finalPaper = s.finalPaper := by
  unfold outlineStep Store.resetPaperState Store.setPaperOutline
  split <;> exact ⟨rfl, rfl, rfl, rfl, rfl, rfl, rfl⟩

theorem paperWriterStep_frame (s : StoreState) (m : Message) :
    (paperWriterStep s m).messageIds = s.messageIds ∧
    (paperWriterStep s m).messages = s.messages ∧
    (paperWriterStep s m).researchIds = s.researchIds ∧
    (paperWriterStep s m).ongoingResearchId = s.ongoingResearchId ∧
    (paperWriterStep s m).researchPlanIds = s.researchPlanIds ∧
    (paperWriterStep s m).researchActivityIds = s.researchActivityIds ∧
    (paperWriterStep s m).paperOutlineId = s.paperOutlineId ∧
    (paperWriterStep s m).completedPaperId = s.completedPaperId ∧
    (paperWriterStep s m).finalPaper = s.finalPaper := by
  simp only [paperWriterStep, Store.addPaperSection]
  split
  · split
    · exact ⟨rfl, rfl, rfl, rfl, rfl, rfl, rfl, rfl, rfl⟩
    · split <;> exact ⟨rfl, rfl, rfl, rfl, rfl, rfl, rfl, rfl, rfl⟩
  · exact ⟨rfl, rfl, rfl, rfl, rfl, rfl, rfl, rfl, rfl⟩

theorem appendResearch_eq_some {s : StoreState} {rid : String} {s1 : StoreState}
    (h : appendResearch s rid = some s1) :
    ∃ pm, ((s.messageIds.reverse.filterMap (getMessage s)).find?
        (fun message => message.agent == some "planner")) = some pm ∧
      s1 = { s with
        ongoingResearchId := some rid
        researchIds := s.researchIds ++ [rid]
        researchPlanIds := mapSet s.researchPlanIds rid pm.id
        researchActivityIds := mapSet s.researchActivityIds rid [pm.id, rid] } := by
  simp only [appendResearch] at h
  split at h
  · exact absurd h (by simp)
  · next pm hfind => exact ⟨pm, hfind, (Option.some.inj h).symm⟩

theorem appendResearchActivity_shape {s : StoreState} {m : Message} {s1 : StoreState}
    (h : appendResearchActivity s m = some s1) :
    ∃ acts reps, s1 = { s with researchActivityIds := acts, researchReportIds := reps } := by
  simp only [appendResearchActivity] at h
  split at h
  · exact ⟨s.researchActivityIds, s.researchReportIds, (Option.some.inj h).symm⟩
  · split at h
    · exact absurd h (by simp)
    · split at h <;> split at h <;>
        exact ⟨_, _, (Option.some.inj h).symm⟩

theorem researchStep_shape {s : StoreState} {m : Message} {s1 : StoreState}
    (h : researchStep s m = some s1) :
    s1.messageIds = s.messageIds ∧
    s1.messages = s.messages ∧
    s1.paperSections = s.paperSections ∧
    s1.paperOutlineId = s.paperOutlineId ∧
    s1.completedPaperId = s.completedPaperId ∧
    s1.finalPaper = s.finalPaper := by
  simp only [researchStep] at h
  split at h
  · split at h
    · rcases Option.bind_eq_some.mp h with ⟨s2, hs2, hact⟩
      rcases Option.map_eq_some'.mp hs2 with ⟨s3, hres, hopen⟩
      rcases appendResearch_eq_some hres with ⟨pm, -, rfl⟩
      rcases appendResearchActivity_shape hact with ⟨acts, reps, rfl⟩
      subst hopen
      exact ⟨rfl, rfl, rfl, rfl, rfl, rfl⟩
    · rcases Option.bind_eq_some.mp h with ⟨s2, hs2, hact⟩
      cases Option.some.inj hs2
      rcases appendResearchActivity_shape hact with ⟨acts, reps, rfl⟩
      exact ⟨rfl, rfl, rfl, rfl, rfl, rfl⟩
  · cases Option.some.inj h
    exact ⟨rfl, rfl, rfl, rfl, rfl, rfl⟩

theorem updateMessage_ongoingResearchId (s : StoreState) (m : Message) :
    (updateMessage s m).ongoingResearchId =
      if s.ongoingResearchId.isSome && m.agent == some "reporter" &&
          !m.isStreaming && !isPaperWritingWorkflow s then none
      else s.ongoingResearchId := by
  simp only [updateMessage]
  have h1 : ∀ x : StoreState, (Store.updateMessage x m).ongoingResearchId =
      x.ongoingResearchId := fun _ => rfl
  rw [h1, (paperWriterStep_frame _ m).2.2.2.1, (outlineStep_frame _ m).2.2.2.1]
  split <;> simp [Store.setOngoingResearch]

/-! ### Concrete states used to instantiate the theorems -/

/-- A session with one planner message and one ongoing research unit. -/
def researchingState : StoreState :=
  { threadId := "t",
    messageIds := ["p0", "r0"],
    messages := [("p0", { id := "p0", threadId := "t", role := "assistant",
                          agent := some "planner", content := "plan" }),
                 ("r0", { id := "r0", threadId := "t", role := "assistant",
                          agent := some "researcher", content := "notes" })],
    researchIds := ["r0"],
    researchPlanIds := [("r0", "p0")],
    researchActivityIds := [("r0", ["p0", "r0"])],
    ongoingResearchId := some "r0",
    openResearchId := some "r0" }

/-- A committed reporter message for `researchingState`. -/
def reporterCommit : Message :=
  { id := "rep1", threadId := "t", role := "assistant",
    agent := some "reporter", content := "report", isStreaming := false }

/-- A session before research starts: a user message and a planner message. -/
def plannedState : StoreState :=
  { threadId := "t",
    messageIds := ["u1", "p1"],
    messages := [("u1", { id := "u1", threadId := "t", role := "user", content := "hi" }),
                 ("p1", { id := "p1", threadId := "t", role := "assistant",
                          agent := some "planner", content := "plan" })] }

/-- A streaming researcher message triggering research creation. -/
def researcherTrigger : Message :=
  { id := "r1", threadId := "t", role := "assistant", agent := some "researcher",
    isStreaming := true }

/-- A committed outline message used to instantiate the reset behaviour. -/
def outlineCommit : Message :=
  { id := "o9", threadId := "t", role := "assistant",
    agent := some "outline_writer", content := "Outline", isStreaming := false }

/-! ### C9: the final-paper gateway tri-state -/

/-- C9.  `fetchFinalPaper(threadId)` sets loading and clears the prior error
before the external call; a successful outcome stores the artifact and ends
loading; a failing outcome stores the error message, ends loading, and leaves
the previously stored artifact value unchanged. -/
theorem fetchFinalPaper_tristate (s : StoreState) (r : FinalPaperResponse) (e : String) :
    (fetchFinalPaperStart s).finalPaperLoading = true ∧
    (fetchFinalPaperStart s).finalPaperError = none ∧
    (fetchFinalPaperRun s (Except.ok r)).finalPaper = some r ∧
    (fetchFinalPaperRun s (Except.ok r)).finalPaperLoading = false ∧
    (fetchFinalPaperRun s (Except.error e)).finalPaperError = some e ∧
    (fetchFinalPaperRun s (Except.error e)).finalPaperLoading = false ∧
    (fetchFinalPaperRun s (Except.error e)).finalPaper = s.finalPaper :=
  ⟨rfl, rfl, rfl, rfl, rfl, rfl, rfl⟩

/-! ### C10: outline commit resets the paper state -/

/-- C10.  Handling a committed `outline_writer` message leaves
`completedPaperId = none` and `paperSections = []` while `paperOutlineId`
becomes the outline's id; and `resetPaperState` itself changes exactly the
`paperSections` and `completedPaperId` fields. -/
theorem outline_commit_resets_paper_state :
    (∀ (s : StoreState) (m : Message), m.agent = some "outline_writer" →
      m.isStreaming = false →
      (appendMessage s m).map StoreState.completedPaperId = some none ∧
      (appendMessage s m).map StoreState.paperSections = some [] ∧
      (appendMessage s m).map StoreState.paperOutlineId = some (some m.id)) ∧
    (∀ t : StoreState,
      Store.resetPaperState t = { t with paperSections := [], completedPaperId := none }) := by
  refine ⟨fun s m hAgent hCommitted => ?_, fun t => rfl⟩
  have hr : researchStep s m = some s := by
    simp [researchStep, isResearchActivityAgent, hAgent]
  have hpw : paperWriterStep (outlineStep s m) m = outlineStep s m := by
    simp [paperWriterStep, hAgent]
  have ho : outlineStep s m =
      Store.resetPaperState (Store.setPaperOutline s m.id) := by
    simp [outlineStep, hAgent, hCommitted]
  have key : appendMessage s m =
      some (Store.appendMessage (paperWriterStep (outlineStep s m) m) m) := by
    rw [appendMessage, hr]; rfl
  rw [key, hpw, ho]
  exact ⟨rfl, rfl, rfl⟩

/-- Closed instance of `outline_commit_resets_paper_state`. -/
theorem outline_commit_resets_paper_state_witness :
    (appendMessage researchingState outlineCommit).map StoreState.completedPaperId =
      some none :=
  (outline_commit_resets_paper_state.1 researchingState outlineCommit rfl rfl).1

/-! ### C8: reporter commit closes research outside the paper workflow -/

/-- C8.  While a research unit is ongoing, a committed `reporter` message
clears the ongoing-research marker exactly when no `outline_writer` or
`paper_writer` message exists anywhere in the store; when such a message
exists, the ongoing research remains set. -/
theorem reporter_commit_clears_research (s : StoreState) (m : Message)
    (hOngoing : s.ongoingResearchId.isSome = true)
    (hAgent : m.agent = some "reporter") (hCommitted : m.isStreaming = false) :
    ((updateMessage s m).ongoingResearchId = none ↔ isPaperWritingWorkflow s = false) ∧
    (isPaperWritingWorkflow s = true →
      (updateMessage s m).ongoingResearchId = s.ongoingResearchId) := by
  rw [updateMessage_ongoingResearchId s m, hAgent, hCommitted, hOngoing]
  cases hPWW : isPaperWritingWorkflow s with
  | true =>
      have hne : s.ongoingResearchId ≠ none := fun h => by simp [h] at hOngoing
      simp [hne]
  | false =>
      simp

/-- Closed instance of `reporter_commit_clears_research`: in a session with no
paper-writing message, the ongoing research is cleared. -/
theorem reporter_commit_clears_research_witness :
    (updateMessage researchingState reporterCommit).ongoingResearchId = none :=
  (reporter_commit_clears_research researchingState reporterCommit rfl rfl rfl).1.mpr
    (by decide)

theorem appendResearchActivity_isSome_of {s : StoreState} {m : Message}
    {rid : String} {cur : List String}
    (hO : s.ongoingResearchId = some rid)
    (hG : mapGet s.researchActivityIds rid = some cur) :
    ∃ s1, appendResearchActivity s m = some s1 := by
  simp only [appendResearchActivity, hO, hG]
  split <;> exact ⟨_, rfl⟩

theorem appendMessage_of_researchStep {s : StoreState} {m : Message} {s1 : StoreState}
    (h : researchStep s m = some s1) :
    appendMessage s m =
      some (Store.appendMessage (paperWriterStep (outlineStep s1 m) m) m) := by
  rw [appendMessage, h]; rfl

theorem appendMessage_composite_researchIds (s1 : StoreState) (m : Message) :
    (Store.appendMessage (paperWriterStep (outlineStep s1 m) m) m).researchIds =
      s1.researchIds := by
  rw [show (Store.appendMessage (paperWriterStep (outlineStep s1 m) m) m).researchIds =
      (paperWriterStep (outlineStep s1 m) m).researchIds from rfl,
    (paperWriterStep_frame _ m).2.2.1, (outlineStep_frame _ m).2.2.1]

theorem appendMessage_composite_ongoing (s1 : StoreState) (m : Message) :
    (Store.appendMessage (paperWriterStep (outlineStep s1 m) m) m).ongoingResearchId =
      s1.ongoingResearchId := by
  rw [show (Store.appendMessage (paperWriterStep (outlineStep s1 m) m) m).ongoingResearchId =
      (paperWriterStep (outlineStep s1 m) m).ongoingResearchId from rfl,
    (paperWriterStep_frame _ m).2.2.2.1, (outlineStep_frame _ m).2.2.2.1]

/-! ### C4: research exclusivity -/

/-- C4.  The ongoing-research marker is a single optional id (so at most one
research is ongoing at any point), and while it is set, processing a new
message appends no new research unit and leaves the marker unchanged;
message updates never extend the research list either. -/
theorem research_exclusivity :
    (∀ s : StoreState, s.ongoingResearchId.toList.length ≤ 1) ∧
    (∀ (s : StoreState) (m : Message) (rid : String) (cur : List String),
      s.ongoingResearchId = some rid →
      mapGet s.researchActivityIds rid = some cur →
      (appendMessage s m).map StoreState.researchIds = some s.researchIds ∧
      (appendMessage s m).map StoreState.ongoingResearchId = some (some rid)) ∧
    (∀ (s : StoreState) (m : Message), (updateMessage s m).researchIds = s.researchIds) := by
  refine ⟨fun s => ?_, fun s m rid cur hO hG => ?_, fun s m => ?_⟩
  · cases s.ongoingResearchId <;> simp
  · have hstep : ∃ s1, researchStep s m = some s1 ∧
        s1.researchIds = s.researchIds ∧ s1.ongoingResearchId = some rid := by
      by_cases htr : isResearchActivityAgent m = true
      · obtain ⟨s1, hs1⟩ := appendResearchActivity_isSome_of (m := m) hO hG
        obtain ⟨acts, reps, hshape⟩ := appendResearchActivity_shape hs1
        refine ⟨s1, ?_, ?_, ?_⟩
        · simp [researchStep, htr, hO, hs1]
        · rw [hshape]
        · rw [hshape]; exact hO
      · refine ⟨s, ?_, rfl, hO⟩
        simp [researchStep, htr]
    obtain ⟨s1, hs1, hids, hongoing⟩ := hstep
    rw [appendMessage_of_researchStep hs1]
    rw [Option.map_some']
    constructor
    · rw [appendMessage_composite_researchIds, hids]
    · rw [Option.map_some', appendMessage_composite_ongoing, hongoing]
  · rw [show (updateMessage s m).researchIds =
        (paperWriterStep (outlineStep (if s.ongoingResearchId.isSome &&
          m.agent == some "reporter" && !m.isStreaming && !isPaperWritingWorkflow s
          then Store.setOngoingResearch s none else s) m) m).researchIds from rfl,
      (paperWriterStep_frame _ m).2.2.1, (outlineStep_frame _ m).2.2.1]
    split <;> rfl

/-- Closed instance of `research_exclusivity`: with research `r0` ongoing, a
new message appends no research unit. -/
theorem research_exclusivity_witness :
    (appendMessage researchingState researcherTrigger).map StoreState.researchIds =
      some researchingState.researchIds :=
  (research_exclusivity.2.1 researchingState researcherTrigger "r0" ["p0", "r0"]
    rfl rfl).1

/-! ### C5: planner linkage -/

/-- Keyed-map consistency: every entry of the message map is stored under its
own id.  All states reachable through the store methods satisfy this, since
`Store.appendMessage` and `Store.updateMessage` always key by `message.id`. -/
def MessagesConsistent (s : StoreState) : Prop :=
  ∀ p ∈ s.messages, p.2.id = p.1

instance (s : StoreState) : Decidable (MessagesConsistent s) := by
  unfold MessagesConsistent
  infer_instance

theorem getMessage_id {s : StoreState} (hWf : MessagesConsistent s)
    {i : String} {pm : Message} (h : getMessage s i = some pm) : pm.id = i := by
  simp only [getMessage, mapGet, Option.map_eq_some'] at h
  obtain ⟨p, hfind, hp2⟩ := h
  have hmem := List.mem_of_find?_eq_some hfind
  have hpred : p.1 = i := by simpa using List.find?_some hfind
  rw [← hp2, hWf p hmem, hpred]

theorem appendResearchActivity_after_create (s : StoreState) (m : Message)
    (pmid : String) :
    ∃ reps, appendResearchActivity
        (Store.openResearch { s with
          ongoingResearchId := some m.id
          researchIds := s.researchIds ++ [m.id]
          researchPlanIds := mapSet s.researchPlanIds m.id pmid
          researchActivityIds := mapSet s.researchActivityIds m.id [pmid, m.id] }
          (some m.id)) m =
      some (Store.openResearch { s with
          ongoingResearchId := some m.id
          researchIds := s.researchIds ++ [m.id]
          researchPlanIds := mapSet s.researchPlanIds m.id pmid
          researchActivityIds := mapSet s.researchActivityIds m.id [pmid, m.id]
          researchReportIds := reps }
          (some m.id)) := by
  simp only [appendResearchActivity, Store.openResearch]
  rw [mapGet_mapSet_self]
  have hc : ([pmid, m.id].contains m.id) = true := by simp
  simp only [hc, if_true]
  split
  · exact ⟨_, rfl⟩
  · exact ⟨s.researchReportIds, rfl⟩

theorem storeAppendMessage_researchPlanIds (x : StoreState) (m : Message) :
    (Store.appendMessage x m).researchPlanIds = x.researchPlanIds := rfl

theorem storeAppendMessage_researchActivityIds (x : StoreState) (m : Message) :
    (Store.appendMessage x m).researchActivityIds = x.researchActivityIds := rfl

theorem storeAppendMessage_messageIds (x : StoreState) (m : Message) :
    (Store.appendMessage x m).messageIds = x.messageIds ++ [m.id] := rfl

/-- C5.  When research starts (trigger message with no ongoing research, in a
consistent store), the created unit's plan id names a `planner` message that
was already in the ordered id list before the trigger message was appended,
and its activity list is seeded with exactly `[planMessageId, triggerId]`. -/
theorem planner_linkage (s : StoreState) (m : Message) (s1 : StoreState)
    (hTrigger : isResearchActivityAgent m = true)
    (hNoOngoing : s.ongoingResearchId = none)
    (hWf : MessagesConsistent s)
    (hRun : appendMessage s m = some s1) :
    ∃ pid pm, mapGet s1.researchPlanIds m.id = some pid ∧
      getMessage s pid = some pm ∧ pm.agent = some "planner" ∧
      pid ∈ s.messageIds ∧
      mapGet s1.researchActivityIds m.id = some [pid, m.id] ∧
      s1.messageIds = s.messageIds ++ [m.id] := by
  simp only [appendMessage, Option.map_eq_some'] at hRun
  obtain ⟨s2, hstep, hs1eq⟩ := hRun
  simp only [researchStep, hTrigger, if_true, hNoOngoing, Option.isNone_none,
    Option.bind_eq_some, Option.map_eq_some'] at hstep
  obtain ⟨s3, ⟨s4, hres, hs3eq⟩, hact⟩ := hstep
  obtain ⟨pm, hfind, hs4eq⟩ := appendResearch_eq_some hres
  have hpl : pm.agent = some "planner" := by simpa using List.find?_some hfind
  have hmem := List.mem_of_find?_eq_some hfind
  rw [List.mem_filterMap] at hmem
  obtain ⟨i, hi, hgm⟩ := hmem
  have hpid : pm.id = i := getMessage_id hWf hgm
  have hget : getMessage s pm.id = some pm := by rw [hpid]; exact hgm
  have hpmem : pm.id ∈ s.messageIds := by rw [hpid]; exact List.mem_reverse.mp hi
  subst hs4eq
  subst hs3eq
  obtain ⟨reps, hactr⟩ := appendResearchActivity_after_create s m pm.id
  rw [hactr] at hact
  cases Option.some.inj hact
  subst hs1eq
  refine ⟨pm.id, pm, ?_, hget, hpl, hpmem, ?_, ?_⟩
  · rw [storeAppendMessage_researchPlanIds,
      (paperWriterStep_frame _ m).2.2.2.2.1, (outlineStep_frame _ m).2.2.2.2.1]
    exact mapGet_mapSet_self _ _ _
  · rw [storeAppendMessage_researchActivityIds,
      (paperWriterStep_frame _ m).2.2.2.2.2.1, (outlineStep_frame _ m).2.2.2.2.2.1]
    exact mapGet_mapSet_self _ _ _
  · rw [storeAppendMessage_messageIds,
      (paperWriterStep_frame _ m).1, (outlineStep_frame _ m).1]
    rfl

/-- The state produced by appending `researcherTrigger` to `plannedState`. -/
def researchStartedState : StoreState :=
  { threadId := "t",
    messageIds := ["u1", "p1", "r1"],
    messages := [("u1", { id := "u1", threadId := "t", role := "user", content := "hi" }),
                 ("p1", { id := "p1", threadId := "t", role := "assistant",
                          agent := some "planner", content := "plan" }),
                 ("r1", { id := "r1", threadId := "t", role := "assistant",
                          agent := some "researcher", isStreaming := true })],
    researchIds := ["r1"],
    researchPlanIds := [("r1", "p1")],
    researchActivityIds := [("r1", ["p1", "r1"])],
    ongoingResearchId := some "r1",
    openResearchId := some "r1" }

/-- Closed instance of `planner_linkage` on the planned session. -/
theorem planner_linkage_witness :
    ∃ pid pm, mapGet researchStartedState.researchPlanIds researcherTrigger.id = some pid ∧
      getMessage plannedState pid = some pm ∧ pm.agent = some "planner" ∧
      pid ∈ plannedState.messageIds ∧
      mapGet researchStartedState.researchActivityIds researcherTrigger.id =
        some [pid, researcherTrigger.id] ∧
      researchStartedState.messageIds = plannedState.messageIds ++ [researcherTrigger.id] :=
  planner_linkage plannedState researcherTrigger researchStartedState (by decide) rfl
    (by decide) (by decide)

/-! ### C6: section reset on a new outline -/

/-- The event sequence of the section-reset scenario:
`outline_writer(commit) → paper_writer(commit, "A") → outline_writer(commit)
→ paper_writer(commit, "B")`, each message streamed then finished. -/
def paperScenarioEvents : List StreamEvent :=
  [ { type := "message_chunk", id := "o1", threadId := "t",
      agent := some "outline_writer", deltaText := some "Outline 1" },
    { type := "finish", id := "o1", threadId := "t", agent := some "outline_writer" },
    { type := "message_chunk", id := "w1", threadId := "t",
      agent := some "paper_writer", deltaText := some "A" },
    { type := "finish", id := "w1", threadId := "t", agent := some "paper_writer" },
    { type := "message_chunk", id := "o2", threadId := "t",
      agent := some "outline_writer", deltaText := some "Outline 2" },
    { type := "finish", id := "o2", threadId := "t", agent := some "outline_writer" },
    { type := "message_chunk", id := "w2", threadId := "t",
      agent := some "paper_writer", deltaText := some "B" },
    { type := "finish", id := "w2", threadId := "t", agent := some "paper_writer" } ]

theorem updateMessage_nonReporter {s : StoreState} {m : Message}
    (hcond : (s.ongoingResearchId.isSome && m.agent == some "reporter" &&
      !m.isStreaming && !isPaperWritingWorkflow s) = false) :
    updateMessage s m = Store.updateMessage (paperWriterStep (outlineStep s m) m) m := by
  simp only [updateMessage, hcond, Bool.false_eq_true, if_false]

theorem paperWriterStep_adds {m : Message} (h1 : m.agent = some "paper_writer")
    (h2 : m.isStreaming = false) (h3 : contentTrimNonempty m.content = true)
    (s : StoreState) :
    ∃ b, paperWriterStep s m = Store.addPaperSection s b := by
  by_cases hc : (((sectionContentField m.content).getD "") != "") = true
  · exact ⟨(sectionContentField m.content).getD "", by simp [paperWriterStep, h1, h2, hc]⟩
  · exact ⟨m.content, by simp [paperWriterStep, h1, h2, hc, h3]⟩

/-- C6.  A committed `outline_writer` message records the new outline id and
resets the accumulated sections; a committed `paper_writer` message with
nonblank content appends exactly one section body; hence the scenario
`outline_writer(commit) → paper_writer(commit, "A") → outline_writer(commit)
→ paper_writer(commit, "B")` ends with `paperSections = ["B"]` and the second
outline id recorded. -/
theorem section_reset_on_new_outline :
    ((runEvents "t" paperScenarioEvents).map StoreState.paperSections = some ["B"] ∧
     (runEvents "t" paperScenarioEvents).map StoreState.paperOutlineId = some (some "o2")) ∧
    (∀ (s : StoreState) (m : Message), m.agent = some "outline_writer" →
      m.isStreaming = false →
      (updateMessage s m).paperSections = [] ∧
      (updateMessage s m).paperOutlineId = some m.id) ∧
    (∀ (s : StoreState) (m : Message), m.agent = some "paper_writer" →
      m.isStreaming = false → contentTrimNonempty m.content = true →
      ∃ b, (updateMessage s m).paperSections = s.paperSections ++ [b]) := by
  refine ⟨⟨by decide, by decide⟩, fun s m h1 h2 => ?_, fun s m h1 h2 h3 => ?_⟩
  · have hcond : (s.ongoingResearchId.isSome && m.agent == some "reporter" &&
        !m.isStreaming && !isPaperWritingWorkflow s) = false := by
      simp [h1]
    rw [updateMessage_nonReporter hcond]
    have hpw : paperWriterStep (outlineStep s m) m = outlineStep s m := by
      simp [paperWriterStep, h1]
    have ho : outlineStep s m = Store.resetPaperState (Store.setPaperOutline s m.id) := by
      simp [outlineStep, h1, h2]
    rw [hpw, ho]
    exact ⟨rfl, rfl⟩
  · have hcond : (s.ongoingResearchId.isSome && m.agent == some "reporter" &&
        !m.isStreaming && !isPaperWritingWorkflow s) = false := by
      simp [h1]
    have ho : outlineStep s m = s := by
      simp [outlineStep, h1]
    obtain ⟨b, hb⟩ := paperWriterStep_adds h1 h2 h3 s
    refine ⟨b, ?_⟩
    rw [updateMessage_nonReporter hcond, ho, hb]
    rfl

/-- Closed instance of `section_reset_on_new_outline`: a committed nonblank
`paper_writer` update appends one section. -/
theorem section_reset_on_new_outline_witness :
    ∃ b, (updateMessage researchingState
        { id := "w9", threadId := "t", role := "assistant",
          agent := some "paper_writer", content := "B", isStreaming := false
        }).paperSections =
      researchingState.paperSections ++ [b] :=
  section_reset_on_new_outline.2.2 researchingState
    { id := "w9", threadId := "t", role := "assistant",
      agent := some "paper_writer", content := "B", isStreaming := false }
    rfl rfl (by decide)

/-! ### C7: append-once and no duplicate ids -/

theorem updateMessage_messageIds (s : StoreState) (m : Message) :
    (updateMessage s m).messageIds = s.messageIds := by
  rw [show (updateMessage s m).messageIds =
      (paperWriterStep (outlineStep
        (if s.ongoingResearchId.isSome && m.agent == some "reporter" &&
            !m.isStreaming && !isPaperWritingWorkflow s
          then Store.setOngoingResearch s none else s) m) m).messageIds from rfl,
    (paperWriterStep_frame _ m).1, (outlineStep_frame _ m).1]
  split <;> rfl

theorem appendMessage_messageIds {s : StoreState} {m : Message} {s1 : StoreState}
    (h : appendMessage s m = some s1) :
    s1.messageIds = s.messageIds ++ [m.id] := by
  simp only [appendMessage, Option.map_eq_some'] at h
  obtain ⟨s2, hstep, hs1⟩ := h
  subst hs1
  rw [storeAppendMessage_messageIds, (paperWriterStep_frame _ m).1,
    (outlineStep_frame _ m).1, (researchStep_shape hstep).1]

theorem processEvent_messageIds {s : StoreState} {e : StreamEvent} {s1 : StoreState}
    (h : processEvent s e = some s1) :
    (e.type ≠ "tool_call_result" → e.id ∉ s.messageIds →
      s1.messageIds = s.messageIds ++ [e.id]) ∧
    (e.type = "tool_call_result" ∨ e.id ∈ s.messageIds → s1.messageIds = s.messageIds) := by
  simp only [processEvent] at h
  split at h
  · next htype =>
    have htype' : e.type = "tool_call_result" := by simpa using htype
    constructor
    · intro hne _; exact absurd htype' hne
    · intro _
      split at h
      · cases Option.some.inj h; rw [updateMessage_messageIds]
      · cases Option.some.inj h; rfl
  · next htype =>
    split at h
    · next hnew =>
      have hnotmem : e.id ∉ s.messageIds := by
        simp only [existsMessage, Bool.not_eq_true'] at hnew
        simpa using hnew
      simp only [Option.map_eq_some'] at h
      obtain ⟨s2, happ, hs1⟩ := h
      subst hs1
      constructor
      · intro _ _
        rw [updateMessage_messageIds, appendMessage_messageIds happ]
      · intro hmem
        rcases hmem with hmem | hmem
        · exact absurd hmem (by simpa using htype)
        · exact absurd hmem hnotmem
    · next hold =>
      have hmem : e.id ∈ s.messageIds := by
        simp only [existsMessage, Bool.not_eq_true', Bool.not_eq_false] at hold
        simpa using hold
      constructor
      · intro _ hnot; exact absurd hmem hnot
      · intro _
        split at h
        · cases Option.some.inj h; rw [updateMessage_messageIds]
        · cases Option.some.inj h; rfl

theorem processEvent_nodup {s : StoreState} {e : StreamEvent} {s1 : StoreState}
    (h : processEvent s e = some s1) (hnd : s.messageIds.Nodup) :
    s1.messageIds.Nodup := by
  by_cases hcase : e.type = "tool_call_result" ∨ e.id ∈ s.messageIds
  · rw [(processEvent_messageIds h).2 hcase]; exact hnd
  · push_neg at hcase
    rw [(processEvent_messageIds h).1 hcase.1 hcase.2]
    simp only [List.nodup_append, List.nodup_cons, List.not_mem_nil,
      not_false_iff, List.nodup_nil, and_true, true_and]
    refine ⟨hnd, fun a ha => ?_⟩
    simp only [List.mem_singleton]
    intro heq
    exact hcase.2 (heq ▸ ha)

theorem runEvents_nodup_aux :
    ∀ (events : List StreamEvent) (s s1 : StoreState), s.messageIds.Nodup →
      events.foldlM processEvent s = some s1 → s1.messageIds.Nodup := by
  intro events
  induction events with
  | nil =>
      intro s s1 hnd hr
      simp only [List.foldlM_nil] at hr
      cases Option.some.inj hr
      exact hnd
  | cons e rest ih =>
      intro s s1 hnd hr
      rw [List.foldlM_cons] at hr
      obtain ⟨s2, h2, hrest⟩ := Option.bind_eq_some.mp hr
      exact ih s2 s1 (processEvent_nodup h2 hnd) hrest

/-- C7.  For any message id, the first increment causes exactly one append
(the id goes to the end of the ordered list); a `tool_call_result` increment
or an increment whose id is already present never re-appends; hence the
ordered id list stays duplicate-free over any processed event sequence. -/
theorem append_once :
    (∀ (s : StoreState) (e : StreamEvent) (s1 : StoreState), processEvent s e = some s1 →
      e.type ≠ "tool_call_result" → e.id ∉ s.messageIds →
      s1.messageIds = s.messageIds ++ [e.id]) ∧
    (∀ (s : StoreState) (e : StreamEvent) (s1 : StoreState), processEvent s e = some s1 →
      e.type = "tool_call_result" ∨ e.id ∈ s.messageIds →
      s1.messageIds = s.messageIds) ∧
    (∀ (s : StoreState) (e : StreamEvent) (s1 : StoreState), processEvent s e = some s1 →
      s.messageIds.Nodup → s1.messageIds.Nodup) ∧
    (∀ (threadId : String) (events : List StreamEvent) (s1 : StoreState),
      runEvents threadId events = some s1 → s1.messageIds.Nodup) :=
  ⟨fun _ _ _ h h1 h2 => (processEvent_messageIds h).1 h1 h2,
   fun _ _ _ h h1 => (processEvent_messageIds h).2 h1,
   fun _ _ _ h hnd => processEvent_nodup h hnd,
   fun _ events s1 hr => runEvents_nodup_aux events _ s1 (by simp [initialState]) hr⟩

/-- The first stream increment of a fresh session. -/
def firstChunkEvent : StreamEvent :=
  { type := "message_chunk", id := "m1", threadId := "t",
    agent := some "coordinator", deltaText := some "hi" }

/-- The state after processing `firstChunkEvent` from the initial state. -/
def streamStartedState : StoreState :=
  { threadId := "t",
    messageIds := ["m1"],
    messages := [("m1", { id := "m1", threadId := "t", role := "assistant",
                          agent := some "coordinator", content := "hi",
                          contentChunks := ["hi"], isStreaming := true })] }

/-- Closed instance of `append_once`: the first increment appends exactly one
id. -/
theorem append_once_witness :
    streamStartedState.messageIds = (initialState "t").messageIds ++ [firstChunkEvent.id] :=
  append_once.1 (initialState "t") firstChunkEvent streamStartedState (by decide)
    (by decide) (by decide)

/-! ### C1: the completion re-evaluation's fire conditions -/

theorem any_paper_writer_of {s : StoreState}
    (h : ∃ m ∈ values s, m.agent = some "paper_writer") :
    ((values s).any (fun msg => msg.agent == some "paper_writer")) = true := by
  obtain ⟨m, hm, hag⟩ := h
  rw [List.any_eq_true]
  exact ⟨m, hm, by simp [hag]⟩

theorem paper_writer_imp_pww {s : StoreState}
    (h : ∃ m ∈ values s, m.agent = some "paper_writer") :
    ((values s).any (fun msg =>
      msg.agent == some "paper_writer" || msg.agent == some "outline_writer")) = true := by
  obtain ⟨m, hm, hag⟩ := h
  rw [List.any_eq_true]
  exact ⟨m, hm, by simp [hag]⟩

/-- C1.  The deferred completion re-evaluation fires exactly when: a
`paper_writer` message exists, no `references_writer` message is streaming, a
`references_writer` message has committed, no message at all is streaming, and
no final artifact is present. -/
theorem checkAndFetchFinalPaper_fires_iff (s : StoreState) :
    MLV.checkAndFetchFinalPaperFires s = true ↔
      ((∃ m ∈ values s, m.agent = some "paper_writer") ∧
       (¬ ∃ m ∈ values s, m.agent = some "references_writer" ∧ m.isStreaming = true) ∧
       (∃ m ∈ values s, m.agent = some "references_writer" ∧ m.isStreaming = false) ∧
       (¬ ∃ m ∈ values s, m.isStreaming = true) ∧
       s.finalPaper = none) := by
  constructor
  · intro hfires
    simp only [MLV.checkAndFetchFinalPaperFires] at hfires
    split at hfires
    · cases hfires
    · split at hfires
      · cases hfires
      · simp only [Bool.and_eq_true, Bool.not_eq_true', beq_iff_eq,
          decide_eq_true_eq] at hfires
        obtain ⟨⟨⟨⟨hpw, hlen0⟩, hlenpos⟩, hnostream⟩, hfp⟩ := hfires
        refine ⟨?_, ?_, ?_, ?_, ?_⟩
        · rw [List.any_eq_true] at hpw
          obtain ⟨m, hm, hpm⟩ := hpw
          exact ⟨m, hm, by simpa using hpm⟩
        · rintro ⟨m, hm, hag, hstr⟩
          have hmem : m ∈ (values s).filter (fun msg =>
              msg.agent == some "references_writer" && msg.isStreaming) :=
            List.mem_filter.mpr ⟨hm, by simp [hag, hstr]⟩
          have := List.length_pos_of_mem hmem
          omega
        · obtain ⟨m, hmem⟩ := List.exists_mem_of_length_pos hlenpos
          rw [List.mem_filter] at hmem
          have hp := hmem.2
          simp only [Bool.and_eq_true, beq_iff_eq, Bool.not_eq_true'] at hp
          exact ⟨m, hmem.1, hp.1, hp.2⟩
        · rintro ⟨m, hm, hstr⟩
          rw [List.any_eq_false] at hnostream
          exact hnostream m hm hstr
        · cases hfp' : s.finalPaper with
          | none => rfl
          | some v => rw [hfp'] at hfp; cases hfp
  · rintro ⟨hpw, hnsr, hcr, hns, hfp⟩
    simp only [MLV.checkAndFetchFinalPaperFires, paper_writer_imp_pww hpw,
      any_paper_writer_of hpw, Bool.not_true, Bool.false_eq_true, if_false]
    simp only [Bool.and_eq_true, Bool.not_eq_true', beq_iff_eq, decide_eq_true_eq]
    refine ⟨⟨⟨⟨trivial, ?_⟩, ?_⟩, ?_⟩, ?_⟩
    · rw [List.length_eq_zero, List.filter_eq_nil_iff]
      intro m hm hcontra
      simp only [Bool.and_eq_true, beq_iff_eq] at hcontra
      exact hnsr ⟨m, hm, hcontra.1, hcontra.2⟩
    · obtain ⟨m, hm, hag, hstr⟩ := hcr
      exact List.length_pos_of_mem (List.mem_filter.mpr ⟨hm, by simp [hag, hstr]⟩)
    · rw [List.any_eq_false]
      intro m hm
      by_cases hb : m.isStreaming = true
      · exact absurd ⟨m, hm, hb⟩ hns
      · simpa using hb
    · rw [hfp]; rfl

/-! ### C2: the section-count estimate is diagnostic only -/

/-- Replace every message body by an arbitrary function of it (agents,
streaming flags and everything else untouched).  Different contents give
different regex match counts, hence arbitrary section-count estimates. -/
def withContents (f : String → String) (s : StoreState) : StoreState :=
  { s with messages := s.messages.map (fun p => (p.1, { p.2 with content := f p.2.content })) }

theorem content_update_agent (m : Message) (c : String) :
    ({ m with content := c } : Message).agent = m.agent := rfl

theorem content_update_isStreaming (m : Message) (c : String) :
    ({ m with content := c } : Message).isStreaming = m.isStreaming := rfl

theorem values_withContents (f : String → String) (s : StoreState) :
    values (withContents f s) =
      (values s).map (fun m => { m with content := f m.content }) := by
  simp only [values, withContents, List.map_map]
  rfl

theorem withContents_finalPaper (f : String → String) (s : StoreState) :
    (withContents f s).finalPaper = s.finalPaper := rfl

/-- A paper-writing session ready for the final fetch: one committed
`paper_writer` section and one committed `references_writer`, nothing
streaming, no artifact yet.  Its outline-free state gives the default
estimate 3 while only one section is complete. -/
def readyStore : StoreState :=
  { threadId := "t",
    messageIds := ["pw1", "rw1"],
    messages := [("pw1", { id := "pw1", threadId := "t", role := "assistant",
                           agent := some "paper_writer", content := "Section one" }),
                 ("rw1", { id := "rw1", threadId := "t", role := "assistant",
                           agent := some "references_writer", content := "Refs" })] }

/-- C2.  The completion re-evaluation's fire decision is a function of the
agents, the streaming flags and the artifact presence alone: it is invariant
under arbitrary rewriting of every message body (which is all the section
estimate depends on); the estimate itself is the pattern-count clamped to
[2, 8] (default 3); and the decision is not blocked by having fewer completed
`paper_writer` messages than the estimate — `readyStore` fires with one
completed section against the default estimate of three. -/
theorem estimate_diagnostic_only :
    (∀ (f : String → String) (s : StoreState),
      MLV.checkAndFetchFinalPaperFires (withContents f s) =
        MLV.checkAndFetchFinalPaperFires s) ∧
    (∀ matchCounts : List Nat, 2 ≤ estimateExpectedSections matchCounts ∧
      estimateExpectedSections matchCounts ≤ 8) ∧
    (MLV.checkAndFetchFinalPaperFires readyStore = true ∧
      completedPaperWriterCount readyStore < estimateExpectedSections []) := by
  refine ⟨fun f s => ?_, fun matchCounts => ?_, by decide, by decide⟩
  · simp only [MLV.checkAndFetchFinalPaperFires, values_withContents, List.any_map,
      List.filter_map, List.length_map, Function.comp_def, content_update_agent,
      content_update_isStreaming, withContents_finalPaper]
  · simp only [estimateExpectedSections]
    split
    · exact ⟨le_min (le_max_right _ _) (by norm_num), min_le_right _ _⟩
    · exact ⟨by norm_num, by norm_num⟩

/-! ### C3: overlapping debounce firings -/

/-- A successful final-paper response. -/
def finalPaperOk : FinalPaperResponse :=
  { final_paper := "PAPER", status := "completed", paper_writing_mode := true }

/-- The gateway run over `readyStore`, before any debounce firing. -/
def mlvReadyRun : MLV.GatewayRun :=
  { store := readyStore, fetchCount := 0, pending := 0 }

/-- A gateway run whose store already holds a final artifact. -/
def mlvArtifactRun : MLV.GatewayRun :=
  { store := { readyStore with finalPaper := some finalPaperOk },
    fetchCount := 1, pending := 0 }

/-- C3 counterexample.  Two overlapping debounce firings — both evaluating
before the first fetch's response is stored — each find the completion
conditions satisfied and no artifact present, so the fetch is invoked twice,
not exactly once: the `!state.finalPaper` guard only suppresses firings that
happen after a fetch has resolved. -/
theorem overlapping_debounce_double_fetch :
    (MLV.fireStep (MLV.fireStep mlvReadyRun)).fetchCount = 2 := by decide

/-- C3 (amended).  A debounce firing that finds a final artifact already
present is a no-op; in particular, when the first fetch resolves before the
second firing evaluates, the two overlapping firings invoke the fetch exactly
once. -/
theorem debounce_refire_noop :
    (∀ g : MLV.GatewayRun, g.store.finalPaper.isSome = true → MLV.fireStep g = g) ∧
    (MLV.fireStep (MLV.resolveOk (MLV.fireStep mlvReadyRun) finalPaperOk "fp-1" "t")).fetchCount = 1 := by
  constructor
  · intro g hart
    have hgate : MLV.checkAndFetchFinalPaperFires g.store = false := by
      simp only [MLV.checkAndFetchFinalPaperFires, hart, Bool.not_true,
        Bool.and_false]
      split
      · rfl
      · split
        · rfl
        · rfl
    simp [MLV.fireStep, hgate]
  · decide

/-- Closed instance of `debounce_refire_noop`: a firing over a store that
already holds the artifact changes nothing. -/
theorem debounce_refire_noop_witness :
    MLV.fireStep mlvArtifactRun = mlvArtifactRun :=
  debounce_refire_noop.1 mlvArtifactRun rfl
